import Mathlib

/-!
Verification of the arXiv scraper (src/index.ts and its sibling variant
src/.version.txt) against its natural-language specification.

The embedding models JavaScript strings as lists of UTF-16-style characters
(`JSString`), the external page-automation capability (Playwright/Stagehand)
as record-of-behaviors structures (`DetailPage`, `ResultElement`), and the
`await`-sequencing of fallible calls as explicit `Except Unit` propagation:
an `await` that throws is an `Except.error`, a `textContent`/`getAttribute`
read that yields `null` is `Except.ok none`.
-/

namespace ArxivScraper

/-- JavaScript strings, modelled as character lists. -/
abbrev JSString := List Char

/-- Literal helper: a Lean string literal as a `JSString`. -/
def jsStr (s : String) : JSString := s.data

/-- The character class of the whitespace removed by `String.prototype.trim`
and matched by the regex class `\s` (the common members). -/
def isJSWhitespace (c : Char) : Bool :=
  c = ' ' || c = '\t' || c = '\n' || c = '\r' || c = '\x0b' || c = '\x0c'

/-- `s.trim()`: whitespace removed from both ends. -/
def jsTrim (s : JSString) : JSString :=
  ((s.dropWhile isJSWhitespace).reverse.dropWhile isJSWhitespace).reverse

/-- The JavaScript idiom `x || d` for `x : string | null`: the default is
taken when the value is `null` or the empty string (both falsy). -/
def jsOrElse (v : Option JSString) (d : JSString) : JSString :=
  match v with
  | some s => if s.isEmpty then d else s
  | none => d

/-- `s.split(sep)` for a single-character separator: never empty, the empty
string splits to `[""]`. -/
def jsSplit (sep : Char) : JSString → List JSString
  | [] => [[]]
  | c :: rest =>
    match jsSplit sep rest with
    | [] => [[]]
    | g :: gs => if c = sep then [] :: g :: gs else (c :: g) :: gs

/-- `s.includes(sub)`: substring containment. -/
def jsIncludes (s sub : JSString) : Bool :=
  (List.range (s.length + 1)).any (fun i => List.isPrefixOf sub (s.drop i))

/-- `s.startsWith(p)`. -/
def jsStartsWith (s p : JSString) : Bool := List.isPrefixOf p s

/-- src/index.ts:27 and src/.version.txt:26 — `MAX_ABSTRACT_LENGTH`. -/
def MAX_ABSTRACT_LENGTH : Nat := 300

/-- src/index.ts:28 — `MAX_PAPERS`. -/
def MAX_PAPERS : Nat := 4

/-- src/index.ts:170-173 (identically src/.version.txt:239-242) — the
abstract truncation the spec calls `normalize(rawAbstract, maxLen)`:
`abstract.length > maxLen ? abstract.substring(0, maxLen) + "..." : abstract`. -/
def normalize (s : JSString) (maxLen : Nat) : JSString :=
  if s.length > maxLen then s.take maxLen ++ jsStr "..." else s

/-- C2: for every string `s` and bound `n`, `normalize` returns `s` unchanged
when `len(s) ≤ n`; otherwise it returns the first `n` characters of `s` (a
hard character cut) followed by the marker `"..."`, so the output has length
exactly `n + 3` and ends with `"..."`. -/
theorem normalize_truncation_contract (s : JSString) (n : Nat) :
    (s.length ≤ n → normalize s n = s) ∧
    (n < s.length →
      normalize s n = s.take n ++ jsStr "..." ∧
      (normalize s n).length = n + 3 ∧
      jsStr "..." <:+ normalize s n) := by
  constructor
  · intro h
    simp [normalize, Nat.not_lt.mpr h]
  · intro h
    have hgt : s.length > n := h
    refine ⟨by simp [normalize, hgt], ?_, ?_⟩
    · simp [normalize, hgt, List.length_take, Nat.min_eq_left (Nat.le_of_lt h)]
      rfl
    · simp only [normalize, hgt, if_pos]
      exact List.suffix_append _ _

/-- C8: `normalize` is idempotent — re-normalizing any output of
`normalize` (truncated or untouched) with the same bound yields that same
string, and already-short strings come back unchanged. -/
theorem normalize_idempotent (s : JSString) (n : Nat) :
    normalize (normalize s n) n = normalize s n ∧
    (s.length ≤ n → normalize s n = s) := by
  refine ⟨?_, fun h => by simp [normalize, Nat.not_lt.mpr h]⟩
  by_cases h : s.length ≤ n
  · simp [normalize, Nat.not_lt.mpr h]
  · have hgt : n < s.length := Nat.lt_of_not_le h
    have htake : (s.take n).length = n := by
      simp [List.length_take, Nat.min_eq_left (Nat.le_of_lt hgt)]
    have hlen : (s.take n ++ jsStr "...").length = n + 3 := by
      simp [htake]
      rfl
    simp only [normalize, hgt, if_pos]
    rw [if_pos (by omega : (s.take n ++ jsStr "...").length > n)]
    rw [List.take_left' htake]

/-- A lightweight paper reference produced by enumeration in src/index.ts
(lines 104-107): title plus absolute detail-page URL. -/
structure Paper where
  title : JSString
  abstractLink : JSString
deriving DecidableEq, Repr

/-- The final output record pushed onto `detailedPapers`
(src/index.ts:175-183 and 204-212). -/
structure PaperRecord where
  title : JSString
  authors : List JSString
  abstract : JSString
  submissionDate : JSString
  doi : JSString
  arxivId : JSString
  citationCount : JSString
deriving DecidableEq, Repr

/-- A Playwright `Locator` handle: `page.locator(sel).first()` returns such
an object synchronously, regardless of whether anything matches. -/
structure Locator where
  selector : JSString

/-- JavaScript truthiness of an object reference: always `true` — a
`Locator` handle is an object, never `null`/`undefined`. -/
def jsTruthyObject (_ : Locator) : Bool := true

/-- The observable behavior of one paper's loaded detail page, as seen
through the calls src/index.ts:127-168 makes: each field read either raises
(`error`), yields `null` (`ok none`) or yields a string. -/
structure DetailPage where
  /-- `page.extract({instruction: "Extract only the abstract text", ...})`
  (src/index.ts:131-136): a string, or a raise. -/
  extractAbstract : Except Unit JSString
  /-- `textContent()` of `page.locator('.authors, .meta, p.authors').first()`
  (src/index.ts:140-142). -/
  authorsText : Except Unit (Option JSString)
  /-- the instruction-driven authors fallback (src/index.ts:146-151). -/
  instructionAuthors : Except Unit (List JSString)
  /-- `textContent()` of `page.locator('div.dateline').first()`
  (src/index.ts:156-157). -/
  datelineText : Except Unit (Option JSString)
  /-- `getAttribute('href')` of `page.locator('a[href*="doi.org"]').first()`
  (src/index.ts:165-167). -/
  doiHref : Except Unit (Option JSString)

/-- `authorsText.split(',').map(a => a.trim()).filter(Boolean)`
(src/index.ts:143, identically src/.version.txt:161). -/
def splitAuthors (s : JSString) : List JSString :=
  ((jsSplit ',' s).map jsTrim).filter (fun a => !a.isEmpty)

/-- src/index.ts:138-153 — authors extraction: a selector handle is taken
first; only when that handle is falsy would the instruction-driven fallback
run. The second component records whether the fallback branch executed. -/
def extractAuthorsFlagged (pg : DetailPage) : Except Unit (List JSString × Bool) :=
  let authorsElement : Locator := { selector := jsStr ".authors, .meta, p.authors" }
  if jsTruthyObject authorsElement then
    match pg.authorsText with
    | .error e => .error e
    | .ok t => .ok (splitAuthors (jsOrElse t []), false)
  else
    match pg.instructionAuthors with
    | .error e => .error e
    | .ok xs => .ok (xs, true)

/-- Whether a run of the authors extraction took the instruction-driven
fallback branch. -/
def usedAuthorsFallback (pg : DetailPage) : Bool :=
  match extractAuthorsFlagged pg with
  | .ok (_, b) => b
  | .error _ => false

/-- src/index.ts:159-161 — the arXiv identifier derived from the URL:
`urlPath = link.split('/').pop() || ""`, then
`urlPath.includes('v') ? urlPath : "arXiv:" + urlPath`. -/
def arxivIdOf (link : JSString) : JSString :=
  let urlPath := (jsSplit '/' link).getLastD []
  if jsIncludes urlPath (jsStr "v") then urlPath else jsStr "arXiv:" ++ urlPath

/-- src/index.ts:163-168 — DOI extraction: `doi` starts as "Not available";
the locator handle is always truthy, so the href is read and `|| "Not
available"` recovers a null read. A raised read propagates. -/
def doiStep (pg : DetailPage) : Except Unit JSString :=
  let doiElement : Locator := { selector := jsStr "a[href*=\"doi.org\"]" }
  if jsTruthyObject doiElement then
    match pg.doiHref with
    | .error e => .error e
    | .ok h => .ok (jsOrElse h (jsStr "Not available"))
  else .ok (jsStr "Not available")

/-- src/index.ts:127-188 — the body of the per-paper `try` block: the five
field reads in source order; any raised read aborts the whole block
(there is no per-field `catch`). -/
def extractDetails (paper : Paper) (pg : DetailPage) : Except Unit PaperRecord :=
  match pg.extractAbstract with
  | .error e => .error e
  | .ok abstract =>
    match extractAuthorsFlagged pg with
    | .error e => .error e
    | .ok (authors, _) =>
      match pg.datelineText with
      | .error e => .error e
      | .ok dt =>
        let submissionDate := jsOrElse dt (jsStr "Date not found")
        let arxivId := arxivIdOf paper.abstractLink
        match doiStep pg with
        | .error e => .error e
        | .ok doi =>
          .ok { title := paper.title
                authors := authors
                abstract := normalize abstract MAX_ABSTRACT_LENGTH
                submissionDate := submissionDate
                doi := doi
                arxivId := arxivId
                citationCount := jsStr "N/A" }

/-- src/index.ts:204-212 — the record pushed by the per-paper `catch`. -/
def fallbackRecord (paper : Paper) : PaperRecord :=
  { title := paper.title
    authors := []
    abstract := jsStr "Extraction Failed"
    submissionDate := jsStr "Extraction Failed"
    doi := jsStr "Not available"
    arxivId := jsStr "Extraction Failed"
    citationCount := jsStr "N/A" }

/-- The record appended for one paper whose page loaded: the `try` result,
or the `catch` fallback (src/index.ts:127-213). -/
def recordFor (paper : Paper) (pg : DetailPage) : PaperRecord :=
  match extractDetails paper pg with
  | .ok r => r
  | .error _ => fallbackRecord paper

/-- src/index.ts:119-214 — the orchestration loop over the enumerated
references. Each item carries the outcome of `page.goto(paper.abstractLink)`
/ `waitForLoadState` (lines 124-125): those awaits sit OUTSIDE the `try`
block, so a navigation failure propagates out of the loop. -/
def processPapers : List (Paper × Except Unit DetailPage) → Except Unit (List PaperRecord)
  | [] => .ok []
  | (paper, nav) :: rest =>
    match nav with
    | .error e => .error e
    | .ok pg =>
      match processPapers rest with
      | .error e => .error e
      | .ok others => .ok (recordFor paper pg :: others)

/-- The record produced when every field read of the page completes: each
field is a function of only its own read. -/
def normalRecord (paper : Paper) (a : JSString) (au dt dh : Option JSString) :
    PaperRecord :=
  { title := paper.title
    authors := splitAuthors (jsOrElse au [])
    abstract := normalize a MAX_ABSTRACT_LENGTH
    submissionDate := jsOrElse dt (jsStr "Date not found")
    doi := jsOrElse dh (jsStr "Not available")
    arxivId := arxivIdOf paper.abstractLink
    citationCount := jsStr "N/A" }

/-- When all four reads of a detail page complete, `extractDetails` succeeds
with the componentwise record. -/
theorem extractDetails_ok (paper : Paper) (pg : DetailPage) (a : JSString)
    (au dt dh : Option JSString)
    (ha : pg.extractAbstract = .ok a) (hau : pg.authorsText = .ok au)
    (hdt : pg.datelineText = .ok dt) (hdh : pg.doiHref = .ok dh) :
    extractDetails paper pg = .ok (normalRecord paper a au dt dh) := by
  simp [extractDetails, extractAuthorsFlagged, doiStep, jsTruthyObject,
    ha, hau, hdt, hdh, normalRecord]

/-- A concrete enumerated reference (for witnesses below). -/
def paperA : Paper :=
  { title := jsStr "Paper One", abstractLink := jsStr "https://arxiv.org/abs/2401.11111v1" }

/-- A second concrete reference. -/
def paperB : Paper :=
  { title := jsStr "Paper Two", abstractLink := jsStr "https://arxiv.org/abs/2401.22222v2" }

/-- A third concrete reference. -/
def paperC : Paper :=
  { title := jsStr "Paper Three", abstractLink := jsStr "https://arxiv.org/abs/2401.33333" }

/-- A fourth concrete reference. -/
def paperD : Paper :=
  { title := jsStr "Paper Four", abstractLink := jsStr "https://arxiv.org/abs/2401.44444v1" }

/-- A detail page on which every read completes; the DOI link is absent
(the href read yields `null`). -/
def okDetailPage : DetailPage :=
  { extractAbstract := .ok (jsStr "An abstract.")
    authorsText := .ok (some (jsStr "Ada Lovelace, Alan Turing"))
    instructionAuthors := .ok []
    datelineText := .ok (some (jsStr "Submitted 1 January, 2024"))
    doiHref := .ok none }

/-- A detail page whose instruction-driven abstract extraction raises. -/
def abstractErrPage : DetailPage :=
  { extractAbstract := .error ()
    authorsText := .ok (some (jsStr "Ada Lovelace"))
    instructionAuthors := .ok []
    datelineText := .ok (some (jsStr "Submitted 2 January, 2024"))
    doiHref := .ok none }

/-- A detail page on which only the dateline read raises; every other field
read completes with a normal value. -/
def dateErrPage : DetailPage :=
  { extractAbstract := .ok (jsStr "A fine abstract.")
    authorsText := .ok (some (jsStr "Grace Hopper"))
    instructionAuthors := .ok []
    datelineText := .error ()
    doiHref := .ok (some (jsStr "https://doi.org/10.1000/xyz")) }

/-- C1 (amended): once navigation has succeeded for a reference, that
reference yields exactly one record — the `try` result or the degraded
`catch` fallback — and subsequent references are still processed, so the
output count equals the reference count; but a navigation failure itself
(`page.goto` sits outside the `try`) propagates out of the loop and aborts
the batch. -/
theorem batch_per_paper_isolation :
    (∀ items : List (Paper × DetailPage),
      processPapers (items.map (fun x => (x.1, Except.ok x.2))) =
        .ok (items.map (fun x => recordFor x.1 x.2)) ∧
      (items.map (fun x => recordFor x.1 x.2)).length = items.length) ∧
    (∀ (pre : List (Paper × DetailPage)) (paper : Paper)
        (post : List (Paper × Except Unit DetailPage)),
      processPapers (pre.map (fun x => (x.1, Except.ok x.2)) ++
        (paper, Except.error ()) :: post) = .error ()) := by
  constructor
  · intro items
    refine ⟨?_, by simp⟩
    induction items with
    | nil => rfl
    | cons hd tl ih => simp [processPapers, ih]
  · intro pre paper post
    induction pre with
    | nil => rfl
    | cons hd tl ih => simp [processPapers, ih]

/-- C1 counterexample: four references, the second one's navigation fails —
the loop does not yield four records (nor any record list at all): the
navigation error propagates and the run aborts. -/
theorem navigation_failure_aborts_batch :
    processPapers
      [(paperA, Except.ok okDetailPage), (paperB, Except.error ()),
       (paperC, Except.ok okDetailPage), (paperD, Except.ok okDetailPage)] =
      Except.error () ∧
    ∀ rs : List PaperRecord,
      processPapers
        [(paperA, Except.ok okDetailPage), (paperB, Except.error ()),
         (paperC, Except.ok okDetailPage), (paperD, Except.ok okDetailPage)] ≠
        Except.ok rs := by
  refine ⟨rfl, fun rs h => ?_⟩
  rw [show processPapers
      [(paperA, Except.ok okDetailPage), (paperB, Except.error ()),
       (paperC, Except.ok okDetailPage), (paperD, Except.ok okDetailPage)] =
      Except.error () from rfl] at h
  exact Except.noConfusion h

/-- C5 (amended): per-field isolation holds for reads that complete with no
value — each such field takes its own documented placeholder and no other
field of the record is affected — but a field read that raises degrades the
whole record (there is no per-field `catch` in src/index.ts:127-213). -/
theorem per_field_placeholder_isolation :
    (∀ (paper : Paper) (pg : DetailPage) (a : JSString) (au dt dh : Option JSString),
      pg.extractAbstract = .ok a → pg.authorsText = .ok au →
      pg.datelineText = .ok dt → pg.doiHref = .ok dh →
      extractDetails paper pg = .ok (normalRecord paper a au dt dh)) ∧
    (∀ (paper : Paper) (a : JSString) (au dt dh : Option JSString),
      normalRecord paper a au none dh =
        { normalRecord paper a au dt dh with submissionDate := jsStr "Date not found" } ∧
      normalRecord paper a au dt none =
        { normalRecord paper a au dt dh with doi := jsStr "Not available" } ∧
      normalRecord paper a none dt dh =
        { normalRecord paper a au dt dh with authors := [] }) ∧
    (∀ (paper : Paper) (pg : DetailPage) (a : JSString) (au : Option JSString),
      pg.extractAbstract = .ok a → pg.authorsText = .ok au →
      pg.datelineText = .error () → extractDetails paper pg = .error ()) := by
  refine ⟨fun paper pg a au dt dh ha hau hdt hdh =>
      extractDetails_ok paper pg a au dt dh ha hau hdt hdh, ?_, ?_⟩
  · intro paper a au dt dh
    refine ⟨rfl, rfl, ?_⟩
    simp [normalRecord, jsOrElse, splitAuthors, jsSplit, jsTrim]
  · intro paper pg a au ha hau hdt
    simp [extractDetails, extractAuthorsFlagged, jsTruthyObject, ha, hau, hdt]

/-- C5 counterexample: on `dateErrPage` only the dateline read raises, yet
the produced record does not keep the other fields populated normally — the
whole record degrades (the abstract extraction succeeded with "A fine
abstract." and a DOI href was available, but the record carries the
whole-record placeholders instead). -/
theorem single_field_raise_degrades_whole_record :
    (recordFor paperA dateErrPage).submissionDate = jsStr "Extraction Failed" ∧
    (recordFor paperA dateErrPage).abstract = jsStr "Extraction Failed" ∧
    (recordFor paperA dateErrPage).abstract ≠
      normalize (jsStr "A fine abstract.") MAX_ABSTRACT_LENGTH ∧
    (recordFor paperA dateErrPage).doi = jsStr "Not available" ∧
    (recordFor paperA dateErrPage).doi ≠ jsStr "https://doi.org/10.1000/xyz" := by
  decide

/-- C6: whenever the whole-record fallback fires (the per-paper `try` block
raised), the appended record is exactly the degraded constant record:
abstract, submissionDate and identifier are "Extraction Failed", authors is
empty, doi is "Not available" and citationCount is "N/A". -/
theorem whole_record_fallback_fields (paper : Paper) (pg : DetailPage)
    (h : extractDetails paper pg = .error ()) :
    recordFor paper pg = fallbackRecord paper ∧
    (recordFor paper pg).abstract = jsStr "Extraction Failed" ∧
    (recordFor paper pg).submissionDate = jsStr "Extraction Failed" ∧
    (recordFor paper pg).arxivId = jsStr "Extraction Failed" ∧
    (recordFor paper pg).authors = [] ∧
    (recordFor paper pg).doi = jsStr "Not available" ∧
    (recordFor paper pg).citationCount = jsStr "N/A" := by
  refine ⟨by simp [recordFor, h], ?_, ?_, ?_, ?_, ?_, ?_⟩ <;>
    simp [recordFor, h, fallbackRecord]

/-- C6 witness: the fallback fires on `abstractErrPage`, and the appended
record carries exactly the documented placeholder fields. -/
theorem whole_record_fallback_fields_witness :
    recordFor paperB abstractErrPage = fallbackRecord paperB ∧
    (recordFor paperB abstractErrPage).abstract = jsStr "Extraction Failed" ∧
    (recordFor paperB abstractErrPage).submissionDate = jsStr "Extraction Failed" ∧
    (recordFor paperB abstractErrPage).arxivId = jsStr "Extraction Failed" ∧
    (recordFor paperB abstractErrPage).authors = [] ∧
    (recordFor paperB abstractErrPage).doi = jsStr "Not available" ∧
    (recordFor paperB abstractErrPage).citationCount = jsStr "N/A" :=
  whole_record_fallback_fields paperB abstractErrPage rfl

/-- C7: on a detail page where the DOI-pattern link is absent (the href read
yields no value) and every read completes, the record's doi is
"Not available" while every other field is populated normally — the other
fields do not depend on the DOI read at all. -/
theorem doi_absent_only_doi_degrades (paper : Paper) (pg : DetailPage)
    (a : JSString) (au dt : Option JSString)
    (ha : pg.extractAbstract = .ok a) (hau : pg.authorsText = .ok au)
    (hdt : pg.datelineText = .ok dt) (hdh : pg.doiHref = .ok none) :
    extractDetails paper pg = .ok (normalRecord paper a au dt none) ∧
    (normalRecord paper a au dt none).doi = jsStr "Not available" ∧
    (normalRecord paper a au dt none).abstract = normalize a MAX_ABSTRACT_LENGTH ∧
    (normalRecord paper a au dt none).authors = splitAuthors (jsOrElse au []) ∧
    (normalRecord paper a au dt none).submissionDate = jsOrElse dt (jsStr "Date not found") ∧
    (normalRecord paper a au dt none).arxivId = arxivIdOf paper.abstractLink ∧
    (normalRecord paper a au dt none).citationCount = jsStr "N/A" ∧
    ∀ dh : Option JSString, normalRecord paper a au dt dh =
      { normalRecord paper a au dt none with doi := jsOrElse dh (jsStr "Not available") } := by
  exact ⟨extractDetails_ok paper pg a au dt none ha hau hdt hdh,
    rfl, rfl, rfl, rfl, rfl, rfl, fun dh => rfl⟩

/-- C7 witness: `okDetailPage` has no DOI link; the extraction succeeds and
only the doi field takes its placeholder. -/
theorem doi_absent_only_doi_degrades_witness :
    extractDetails paperA okDetailPage =
      .ok (normalRecord paperA (jsStr "An abstract.")
        (some (jsStr "Ada Lovelace, Alan Turing"))
        (some (jsStr "Submitted 1 January, 2024")) none) ∧
    (normalRecord paperA (jsStr "An abstract.")
        (some (jsStr "Ada Lovelace, Alan Turing"))
        (some (jsStr "Submitted 1 January, 2024")) none).doi = jsStr "Not available" ∧
    (normalRecord paperA (jsStr "An abstract.")
        (some (jsStr "Ada Lovelace, Alan Turing"))
        (some (jsStr "Submitted 1 January, 2024")) none).abstract =
      normalize (jsStr "An abstract.") MAX_ABSTRACT_LENGTH ∧
    (normalRecord paperA (jsStr "An abstract.")
        (some (jsStr "Ada Lovelace, Alan Turing"))
        (some (jsStr "Submitted 1 January, 2024")) none).authors =
      splitAuthors (jsOrElse (some (jsStr "Ada Lovelace, Alan Turing")) []) ∧
    (normalRecord paperA (jsStr "An abstract.")
        (some (jsStr "Ada Lovelace, Alan Turing"))
        (some (jsStr "Submitted 1 January, 2024")) none).submissionDate =
      jsOrElse (some (jsStr "Submitted 1 January, 2024")) (jsStr "Date not found") ∧
    (normalRecord paperA (jsStr "An abstract.")
        (some (jsStr "Ada Lovelace, Alan Turing"))
        (some (jsStr "Submitted 1 January, 2024")) none).arxivId =
      arxivIdOf paperA.abstractLink ∧
    (normalRecord paperA (jsStr "An abstract.")
        (some (jsStr "Ada Lovelace, Alan Turing"))
        (some (jsStr "Submitted 1 January, 2024")) none).citationCount = jsStr "N/A" ∧
    ∀ dh : Option JSString, normalRecord paperA (jsStr "An abstract.")
        (some (jsStr "Ada Lovelace, Alan Turing"))
        (some (jsStr "Submitted 1 January, 2024")) dh =
      { normalRecord paperA (jsStr "An abstract.")
          (some (jsStr "Ada Lovelace, Alan Turing"))
          (some (jsStr "Submitted 1 January, 2024")) none with
        doi := jsOrElse dh (jsStr "Not available") } :=
  doi_absent_only_doi_degrades paperA okDetailPage (jsStr "An abstract.")
    (some (jsStr "Ada Lovelace, Alan Turing"))
    (some (jsStr "Submitted 1 January, 2024")) rfl rfl rfl rfl

/-- C10: the instruction-driven authors fallback in src/index.ts:138-153 is
unreachable — the locator handle is an object and therefore always truthy,
so the selector-based split-on-comma path is always taken, and a
successfully produced record's authors always come from that path. -/
theorem authors_fallback_unreachable :
    ∀ pg : DetailPage,
      usedAuthorsFallback pg = false ∧
      (∀ t, pg.authorsText = .ok t →
        extractAuthorsFlagged pg = .ok (splitAuthors (jsOrElse t []), false)) ∧
      (∀ (paper : Paper) (r : PaperRecord), extractDetails paper pg = .ok r →
        ∃ t, pg.authorsText = .ok t ∧ r.authors = splitAuthors (jsOrElse t [])) := by
  intro pg
  refine ⟨?_, ?_, ?_⟩
  · cases h : pg.authorsText <;>
      simp [usedAuthorsFallback, extractAuthorsFlagged, jsTruthyObject, h]
  · intro t ht
    simp [extractAuthorsFlagged, jsTruthyObject, ht]
  · intro paper r hr
    cases ha : pg.extractAbstract with
    | error e => simp [extractDetails, ha] at hr
    | ok a =>
      cases hau : pg.authorsText with
      | error e =>
        simp [extractDetails, extractAuthorsFlagged, jsTruthyObject, ha, hau] at hr
      | ok au =>
        cases hdt : pg.datelineText with
        | error e =>
          simp [extractDetails, extractAuthorsFlagged, jsTruthyObject, ha, hau, hdt] at hr
        | ok dt =>
          cases hdh : pg.doiHref with
          | error e =>
            simp [extractDetails, extractAuthorsFlagged, doiStep, jsTruthyObject,
              ha, hau, hdt, hdh] at hr
          | ok dh =>
            have hok := extractDetails_ok paper pg a au dt dh ha hau hdt hdh
            rw [hr] at hok
            refine ⟨au, rfl, ?_⟩
            rw [Except.ok.injEq] at hok
            rw [hok]
            rfl

/-- Handles of matched DOM elements, as returned by `locator(sel).all()`. -/
abbrev ElemHandle := Nat

/-- The error-to-zero-matches view of a candidate evaluator: a raising
candidate becomes one with an empty match set. -/
def errToEmpty (evalSel : JSString → Except Unit (List ElemHandle)) :
    JSString → Except Unit (List ElemHandle) :=
  fun s => .ok (match evalSel s with | .ok ms => ms | .error _ => [])

/-- src/.version.txt:95-110 — the candidate-selector loop:
`paperElements` starts as the accumulator, each candidate is tried in order,
a raising candidate is logged and skipped, and the loop breaks on the first
candidate with `length > 0`. The second component records which candidates
were evaluated, in order (for the short-circuit property). -/
def resolveSelectors (evalSel : JSString → Except Unit (List ElemHandle)) :
    List JSString → List ElemHandle → List ElemHandle × List JSString
  | [], acc => (acc, [])
  | s :: rest, acc =>
    match evalSel s with
    | .error _ =>
      let r := resolveSelectors evalSel rest acc
      (r.1, s :: r.2)
    | .ok ms =>
      if ms.length > 0 then (ms, [s])
      else
        let r := resolveSelectors evalSel rest ms
        (r.1, s :: r.2)

/-- Candidates before the first matching one — whether they raised or
matched nothing — are skipped, and resolution stops at the first candidate
with a nonempty match set. -/
theorem resolveSelectors_first_match (evalSel : JSString → Except Unit (List ElemHandle)) :
    ∀ (pre : List JSString) (c : JSString) (post : List JSString) (ms : List ElemHandle),
      (∀ s ∈ pre, evalSel s = .error () ∨ evalSel s = .ok []) →
      evalSel c = .ok ms → ms ≠ [] →
      resolveSelectors evalSel (pre ++ c :: post) [] = (ms, pre ++ [c]) := by
  intro pre
  induction pre with
  | nil =>
    intro c post ms _ hc hms
    have hlen : 0 < ms.length := List.length_pos.mpr hms
    simp [resolveSelectors, hc, hlen]
  | cons s pre ih =>
    intro c post ms hpre hc hms
    have hrest : ∀ x ∈ pre, evalSel x = .error () ∨ evalSel x = .ok [] :=
      fun x hx => hpre x (List.mem_cons_of_mem _ hx)
    have hgoal := ih c post ms hrest hc hms
    cases hpre s (List.mem_cons_self _ _) with
    | inl herr => simp [resolveSelectors, herr, hgoal]
    | inr hok => simp [resolveSelectors, hok, hgoal]

/-- A candidate that raises behaves exactly like one with zero matches. -/
theorem resolveSelectors_error_as_zero (evalSel : JSString → Except Unit (List ElemHandle)) :
    ∀ cands, resolveSelectors (errToEmpty evalSel) cands [] =
      resolveSelectors evalSel cands [] := by
  intro cands
  induction cands with
  | nil => rfl
  | cons s rest ih =>
    cases h : evalSel s with
    | error e =>
      cases e
      simp [resolveSelectors, errToEmpty, h, ih]
    | ok ms =>
      by_cases hlen : ms.length > 0
      · simp [resolveSelectors, errToEmpty, h, hlen]
      · have hnil : ms = [] := List.eq_nil_of_length_eq_zero (Nat.eq_zero_of_not_pos hlen)
        subst hnil
        simp [resolveSelectors, errToEmpty, h, ih]

/-- C3: selector resolution returns the match set of the first candidate
yielding at least one match; candidates after it are never evaluated (the
evaluation trace is exactly `pre ++ [c]`); and a candidate that raises is
treated exactly like one with zero matches — resolution continues. -/
theorem selector_resolution_contract (evalSel : JSString → Except Unit (List ElemHandle))
    (pre : List JSString) (c : JSString) (post : List JSString) (ms : List ElemHandle)
    (hpre : ∀ s ∈ pre, evalSel s = .error () ∨ evalSel s = .ok [])
    (hc : evalSel c = .ok ms) (hms : ms ≠ []) :
    resolveSelectors evalSel (pre ++ c :: post) [] = (ms, pre ++ [c]) ∧
    ∀ cands, resolveSelectors (errToEmpty evalSel) cands [] =
      resolveSelectors evalSel cands [] :=
  ⟨resolveSelectors_first_match evalSel pre c post ms hpre hc hms,
   resolveSelectors_error_as_zero evalSel⟩

/-- A concrete candidate evaluator: the first candidate raises (timeout),
the second matches two elements, the third would match nothing. -/
def evalSelConcrete : JSString → Except Unit (List ElemHandle) :=
  fun s =>
    if s = jsStr "li.arxiv-result" then .error ()
    else if s = jsStr "ol.breathe-horizontal > li" then .ok [7, 8]
    else .ok []

/-- C3 witness: with the concrete evaluator, resolution skips the raising
candidate, returns the second candidate's matches, and never evaluates the
third. -/
theorem selector_resolution_contract_witness :
    resolveSelectors evalSelConcrete
      ([jsStr "li.arxiv-result"] ++ jsStr "ol.breathe-horizontal > li" ::
        [jsStr "div.results > ul > li"]) [] =
      ([7, 8], [jsStr "li.arxiv-result"] ++ [jsStr "ol.breathe-horizontal > li"]) ∧
    ∀ cands, resolveSelectors (errToEmpty evalSelConcrete) cands [] =
      resolveSelectors evalSelConcrete cands [] :=
  selector_resolution_contract evalSelConcrete
    [jsStr "li.arxiv-result"] (jsStr "ol.breathe-horizontal > li")
    [jsStr "div.results > ul > li"] [7, 8]
    (by intro s hs; rw [List.mem_singleton] at hs; subst hs; left; rfl)
    rfl (by decide)

/-- The observable behavior of one result element on the search-results
page, as seen through the calls src/.version.txt:129-216 makes within its
subtree scope. -/
structure ResultElement where
  /-- `element.locator(sel).first().textContent({timeout})`: raises on a
  lookup/timeout failure, else a string or `null`. -/
  textOf : JSString → Except Unit (Option JSString)
  /-- `element.locator(sel).first().getAttribute('href', {timeout})`. -/
  attrOf : JSString → Except Unit (Option JSString)
  /-- hrefs of `element.locator('a').all()`, in document order
  (src/.version.txt:187-189). -/
  anchorHrefs : Except Unit (List (Option JSString))
  /-- `element.evaluate(el => el.outerHTML...)` — the debug log of
  src/.version.txt:135 run for the first element only. -/
  outerHtml : Except Unit JSString

/-- src/.version.txt:141 — the title candidate list. -/
def titleSelectors : List JSString :=
  [jsStr "p.title", jsStr ".list-title", jsStr ".title", jsStr "h3"]

/-- src/.version.txt:156 — the authors candidate list. -/
def authorsSelectors : List JSString :=
  [jsStr "p.authors", jsStr ".list-authors", jsStr ".authors", jsStr ".meta"]

/-- src/.version.txt:171 — the detail-link candidate list. -/
def linkSelectors : List JSString :=
  [jsStr "a.abstract-link", jsStr "a[href*=\"/abs/\"]", jsStr "a:has-text(\"abstract\")"]

/-- src/.version.txt:141-152 — the title loop: first candidate whose text
read completes with a truthy (non-null, nonempty) string wins; raising or
falsy candidates are skipped; the default stands if none wins. -/
def firstTruthyText (el : ResultElement) (dflt : JSString) : List JSString → JSString
  | [] => dflt
  | s :: rest =>
    match el.textOf s with
    | .ok (some t) => if t.isEmpty then firstTruthyText el dflt rest else t
    | .ok none => firstTruthyText el dflt rest
    | .error _ => firstTruthyText el dflt rest

/-- src/.version.txt:155-167 — the authors loop: like the title loop, but
the winning text is split on commas, trimmed and filtered; `authors` stays
empty when no candidate wins. -/
def elementAuthors (el : ResultElement) : List JSString → List JSString
  | [] => []
  | s :: rest =>
    match el.textOf s with
    | .ok (some t) => if t.isEmpty then elementAuthors el rest else splitAuthors t
    | .ok none => elementAuthors el rest
    | .error _ => elementAuthors el rest

/-- `href.startsWith('http') ? href : 'https://arxiv.org' + href`
(src/.version.txt:176 and 191, src/index.ts:102). -/
def toAbsoluteUrl (href : JSString) : JSString :=
  if jsStartsWith href (jsStr "http") then href
  else jsStr "https://arxiv.org" ++ href

/-- src/.version.txt:170-182 — the primary detail-link loop over the
candidate selectors; the empty string means every candidate failed. -/
def primaryLink (el : ResultElement) : List JSString → JSString
  | [] => []
  | s :: rest =>
    match el.attrOf s with
    | .ok h =>
      if (jsOrElse h []).isEmpty then primaryLink el rest
      else toAbsoluteUrl (jsOrElse h [])
    | .error _ => primaryLink el rest

/-- src/.version.txt:190 — the detail-page path marker test applied to a
scanned anchor's href: `href.includes('/abs/') || href.includes('arxiv.org')`. -/
def detailMarker (h : JSString) : Bool :=
  jsIncludes h (jsStr "/abs/") || jsIncludes h (jsStr "arxiv.org")

/-- src/.version.txt:188-194 — scan the element's anchors in document order
and take the first truthy href that carries the marker. -/
def firstMarkerAnchor : List (Option JSString) → Option JSString
  | [] => none
  | none :: rest => firstMarkerAnchor rest
  | some h :: rest =>
    if !h.isEmpty && detailMarker h then some h else firstMarkerAnchor rest

/-- src/.version.txt:184-198 — the anchor-scan fallback, entered only when
the primary loop produced no link; a raising `all()` is swallowed. -/
def fallbackLink (el : ResultElement) : JSString :=
  match el.anchorHrefs with
  | .error _ => []
  | .ok hrefs =>
    match firstMarkerAnchor hrefs with
    | some h => toAbsoluteUrl h
    | none => []

/-- The element's detail link after both stages. -/
def elementLink (el : ResultElement) : JSString :=
  let primary := primaryLink el linkSelectors
  if primary.isEmpty then fallbackLink el else primary

/-- `title.replace(/^\s*Title:\s*/i, '').trim()` (src/.version.txt:206,
src/index.ts:97): the label match is anchored at the start, case-insensitive,
with whitespace absorbed around it. -/
def stripTitleLabel (s : JSString) : JSString :=
  let t := s.dropWhile isJSWhitespace
  if (t.take 6).map Char.toLower = jsStr "title:" then
    jsTrim ((t.drop 6).dropWhile isJSWhitespace)
  else jsTrim s

/-- One entry of `topPapersLinks` (src/.version.txt:205-209). -/
structure PaperRef where
  title : JSString
  authors : List JSString
  abstractLink : JSString
deriving DecidableEq, Repr

/-- src/.version.txt:129-217 — processing of one result element: a
reference, or `none` when no detail link was found (line 200-203:
`continue`, the reference is dropped). -/
def processElement (el : ResultElement) : Option PaperRef :=
  let link := elementLink el
  if link.isEmpty then none
  else some { title := stripTitleLabel (firstTruthyText el (jsStr "Title not found") titleSelectors)
              authors := elementAuthors el authorsSelectors
              abstractLink := link }

/-- Whether a fallible call completed. -/
def isOkExcept {α : Type} : Except Unit α → Bool
  | .ok _ => true
  | .error _ => false

/-- The per-iteration step: for the first element (`i === 0`) the debug
`evaluate` of src/.version.txt:134-137 runs inside the same `try`, so its
raising also drops that element. -/
def stepElement (i : Nat) (el : ResultElement) : Option PaperRef :=
  if i = 0 then
    match el.outerHtml with
    | .error _ => none
    | .ok _ => processElement el
  else processElement el

/-- src/.version.txt:129-217 — the enumeration loop
`for (i = 0; i < Math.min(paperElements.length, MAX_PAPERS); i++)`,
with `m` the cap and `i` the running index. -/
def enumGo (m : Nat) : Nat → List ResultElement → List PaperRef
  | _, [] => []
  | i, el :: rest =>
    if i < m then
      match stepElement i el with
      | some r => r :: enumGo m (i + 1) rest
      | none => enumGo m (i + 1) rest
    else []

/-- The enumerator: ordered references from the result elements, capped. -/
def enumeratePapers (els : List ResultElement) (m : Nat) : List PaperRef :=
  enumGo m 0 els

/-- The per-iteration outcomes of the enumeration loop, in order, one per
element under the cap. -/
def rawSteps (m : Nat) : Nat → List ResultElement → List (Option PaperRef)
  | _, [] => []
  | i, el :: rest =>
    if i < m then stepElement i el :: rawSteps m (i + 1) rest else []

/-- The enumerator keeps exactly the successful step outcomes, in order. -/
theorem enumGo_eq_filterMap (m : Nat) :
    ∀ (i : Nat) (els : List ResultElement),
      enumGo m i els = (rawSteps m i els).filterMap id := by
  intro i els
  induction els generalizing i with
  | nil => rfl
  | cons el rest ih =>
    by_cases hi : i < m
    · cases hs : stepElement i el <;>
        simp [enumGo, rawSteps, hi, hs, List.filterMap_cons, ih]
    · simp [enumGo, rawSteps, hi]

/-- The loop performs exactly `min(remaining elements, remaining budget)`
iterations. -/
theorem rawSteps_length (m : Nat) :
    ∀ (i : Nat) (els : List ResultElement),
      (rawSteps m i els).length = min els.length (m - i) := by
  intro i els
  induction els generalizing i with
  | nil => simp [rawSteps]
  | cons el rest ih =>
    by_cases hi : i < m
    · have : m - i = (m - (i + 1)) + 1 := by omega
      simp [rawSteps, hi, ih (i + 1), this, Nat.succ_min_succ]
    · have : m - i = 0 := by omega
      simp [rawSteps, hi, this]

/-- Keeping every entry of an all-successful outcome list is the identity. -/
theorem filterMap_id_map_some (rs : List PaperRef) :
    (rs.map some).filterMap id = rs := by
  induction rs with
  | nil => rfl
  | cons r rest ih => simp [List.filterMap_cons, ih]

/-- C4 (amended): when each of the first `min(k, m)` result elements yields
a reference, the enumerator's output is exactly those references in
document order and its length is exactly `min(k, m)`; an element that
yields none is dropped, shortening the output below that bound. -/
theorem enumerator_length_and_order (els : List ResultElement) (m : Nat)
    (rs : List PaperRef) (h : rawSteps m 0 els = rs.map some) :
    enumeratePapers els m = rs ∧ rs.length = min els.length m := by
  constructor
  · rw [enumeratePapers, enumGo_eq_filterMap, h, filterMap_id_map_some]
  · have hlen := rawSteps_length m 0 els
    rw [h] at hlen
    simpa using hlen

/-- A concrete result element whose title and detail link resolve through
the primary selector candidates. -/
def resultElemA : ResultElement :=
  { textOf := fun s =>
      if s = jsStr "p.title" then .ok (some (jsStr " Title: Alpha Paper ")) else .ok none
    attrOf := fun s =>
      if s = jsStr "a.abstract-link" then .ok (some (jsStr "/abs/2401.00001")) else .ok none
    anchorHrefs := .ok []
    outerHtml := .ok (jsStr "<li class=arxiv-result></li>") }

/-- A concrete result element whose primary link candidates all fail (every
href read yields `null`), with two anchors in scope: a bare fragment link
first, then a marker-carrying detail link. -/
def resultElemB : ResultElement :=
  { textOf := fun s =>
      if s = jsStr ".list-title" then .ok (some (jsStr "Beta Paper")) else .error ()
    attrOf := fun _ => .ok none
    anchorHrefs := .ok [some (jsStr "#"), some (jsStr "https://arxiv.org/abs/2401.00002")]
    outerHtml := .ok (jsStr "<li></li>") }

/-- The reference `resultElemA` yields. -/
def refA : PaperRef :=
  { title := jsStr "Alpha Paper", authors := []
    abstractLink := jsStr "https://arxiv.org/abs/2401.00001" }

/-- The reference `resultElemB` yields (via the anchor-scan fallback). -/
def refB : PaperRef :=
  { title := jsStr "Beta Paper", authors := []
    abstractLink := jsStr "https://arxiv.org/abs/2401.00002" }

/-- C4 witness: two result elements, cap 4, each yielding a reference — the
output is exactly those two references in document order, of length
`min(2, 4) = 2`. -/
theorem enumerator_length_and_order_witness :
    enumeratePapers [resultElemA, resultElemB] 4 = [refA, refB] ∧
    ([refA, refB] : List PaperRef).length =
      min ([resultElemA, resultElemB] : List ResultElement).length 4 :=
  enumerator_length_and_order [resultElemA, resultElemB] 4 [refA, refB] (by decide)

/-- A result element with no usable detail link at all: every scoped lookup
raises and its only anchor carries no detail-page marker. -/
def dropElem : ResultElement :=
  { textOf := fun _ => .error ()
    attrOf := fun _ => .error ()
    anchorHrefs := .ok [some (jsStr "#top")]
    outerHtml := .ok (jsStr "<li></li>") }

/-- C4 counterexample: one available result element and cap 3 — the claim
requires output length `min(1, 3) = 1`, but the element's reference is
dropped and the enumerator outputs 0 references. -/
theorem enumerator_undercount_counterexample :
    (enumeratePapers [dropElem] 3).length ≠
      min ([dropElem] : List ResultElement).length 3 := by
  decide

/-- An anchor accepted by the fallback scan carries a truthy href. -/
theorem firstMarkerAnchor_isEmpty_false :
    ∀ (hrefs : List (Option JSString)) (h : JSString),
      firstMarkerAnchor hrefs = some h → h.isEmpty = false := by
  intro hrefs
  induction hrefs with
  | nil => intro h hh; simp [firstMarkerAnchor] at hh
  | cons o rest ih =>
    intro h hh
    cases o with
    | none => exact ih h (by simpa [firstMarkerAnchor] using hh)
    | some g =>
      by_cases hc : (!g.isEmpty && detailMarker g) = true
      · rw [firstMarkerAnchor, if_pos hc] at hh
        cases hh
        simpa using ((Bool.and_eq_true _ _).mp hc).1
      · rw [firstMarkerAnchor, if_neg hc] at hh
        exact ih h hh

/-- Absolutization never produces the empty string from a truthy href. -/
theorem toAbsoluteUrl_isEmpty_false (h : JSString) (hne : h.isEmpty = false) :
    (toAbsoluteUrl h).isEmpty = false := by
  rw [toAbsoluteUrl]
  split
  · exact hne
  · rfl

/-- C9: for a result element whose primary detail-link candidates all fail,
the link comes from the anchor-scan fallback; if some anchor's href carries
the detail-page marker, the FIRST such anchor's href (absolutized) becomes
the reference's link and the reference is emitted; if none does, the
reference is dropped — not emitted with a placeholder URL — and enumeration
continues with the next element. -/
theorem anchor_fallback_first_marker_or_drop (el : ResultElement) (i m : Nat)
    (post : List ResultElement) (hi : i < m)
    (hfirst : i = 0 → isOkExcept el.outerHtml = true)
    (hprimary : primaryLink el linkSelectors = []) :
    elementLink el = fallbackLink el ∧
    (∀ hrefs h, el.anchorHrefs = .ok hrefs → firstMarkerAnchor hrefs = some h →
      enumGo m i (el :: post) =
        { title := stripTitleLabel (firstTruthyText el (jsStr "Title not found") titleSelectors)
          authors := elementAuthors el authorsSelectors
          abstractLink := toAbsoluteUrl h } :: enumGo m (i + 1) post) ∧
    (∀ hrefs, el.anchorHrefs = .ok hrefs → firstMarkerAnchor hrefs = none →
      enumGo m i (el :: post) = enumGo m (i + 1) post) := by
  have hstep : stepElement i el = processElement el := by
    rcases Nat.eq_zero_or_pos i with h0 | hpos
    · subst h0
      have hok := hfirst rfl
      cases ho : el.outerHtml with
      | error e => rw [ho] at hok; simp [isOkExcept] at hok
      | ok v => simp [stepElement, ho]
    · have hne : i ≠ 0 := Nat.pos_iff_ne_zero.mp hpos
      simp [stepElement, hne]
  have hlink : elementLink el = fallbackLink el := by
    simp [elementLink, hprimary]
  refine ⟨hlink, ?_, ?_⟩
  · intro hrefs h hA hM
    have hne := firstMarkerAnchor_isEmpty_false hrefs h hM
    have hfall : fallbackLink el = toAbsoluteUrl h := by
      simp [fallbackLink, hA, hM]
    have hproc : processElement el =
        some { title := stripTitleLabel (firstTruthyText el (jsStr "Title not found") titleSelectors)
               authors := elementAuthors el authorsSelectors
               abstractLink := toAbsoluteUrl h } := by
      simp [processElement, elementLink, hprimary, hfall,
        toAbsoluteUrl_isEmpty_false h hne]
    simp [enumGo, hi, hstep, hproc]
  · intro hrefs hA hM
    have hproc : processElement el = none := by
      simp [processElement, elementLink, hprimary, fallbackLink, hA, hM]
    simp [enumGo, hi, hstep, hproc]

/-- C9 witness: `resultElemB` at loop position 1 under cap 4 — its primary
candidates all fail, its first anchor lacks the marker, its second anchor's
href is taken, and the emitted reference carries that absolutized href. -/
theorem anchor_fallback_first_marker_or_drop_witness :
    elementLink resultElemB = fallbackLink resultElemB ∧
    (∀ hrefs h, resultElemB.anchorHrefs = .ok hrefs → firstMarkerAnchor hrefs = some h →
      enumGo 4 1 [resultElemB] =
        { title := stripTitleLabel
            (firstTruthyText resultElemB (jsStr "Title not found") titleSelectors)
          authors := elementAuthors resultElemB authorsSelectors
          abstractLink := toAbsoluteUrl h } :: enumGo 4 2 []) ∧
    (∀ hrefs, resultElemB.anchorHrefs = .ok hrefs → firstMarkerAnchor hrefs = none →
      enumGo 4 1 [resultElemB] = enumGo 4 2 []) :=
  anchor_fallback_first_marker_or_drop resultElemB 1 4 [] (by decide)
    (fun h => absurd h (by decide)) (by decide)

end ArxivScraper
